import Mathlib

/-!
Verification of the payroll core of the PFE repository.

The source under scrutiny:
  * `src/lib/payroll/salary-calculator.ts`  — `computeSalary`, `round2`
  * `src/lib/payroll/leave-calculator.ts`   — `calculateAttendance`
  * `src/lib/services/leave-service.ts`     — `createLeaveRequest`,
    `getLeaveBalance`, `getMonthlySummary`, `countWorkDaysBetween`,
    `calculateLeaveDuration`
  * the reward service file                  — `grantReward`, `revokeReward`

Numbers are embedded as exact rationals (`ℚ`); `round2` is JavaScript's
`Math.round(n * 100) / 100`, i.e. half-up rounding towards `+∞` at two
decimal places.  Calendar dates are embedded as absolute day numbers
(days since 0000-03-01 of the proleptic Gregorian calendar), with
conversions from `(year, month, day)` triples.  Database tables are
embedded as lists of rows; services become pure state-passing functions.

The module `src/lib/payroll/constants.ts` is imported by every payroll
file but is absent from the repository snapshot; its members
(`isWorkDay`, `countWorkDaysInMonth`, `STANDARD_HOURS_PER_DAY`,
`OVERTIME_MULTIPLIER`, `ANNUAL_LEAVE_TYPES`, `PAID_LEAVE_TYPES`) are
modelled from the specification, as marked on each definition.

The four arithmetic operations on `Rat` are restored to semireducible so
that concrete computations reduce inside the kernel (their library
`irreducible` marking is elaborator-only and blocks `decide`).
-/

set_option allowUnsafeReducibility true
attribute [local semireducible] Rat.add Rat.mul Rat.inv Rat.sub

/-- `round2` from `salary-calculator.ts` / `leave-service.ts`:
`Math.round(n * 100) / 100`, idealised over exact rationals.
JavaScript's `Math.round x = ⌊x + 1/2⌋` (half-up towards `+∞`);
`Rat.floor` is used so that the definition evaluates in the kernel. -/
def round2 (n : ℚ) : ℚ := ((n * 100 + 1 / 2).floor : ℤ) / 100

/-- A rational is a whole number of cents. -/
def IsCent (q : ℚ) : Prop := ∃ z : ℤ, q = z / 100

/-! ## Calendar module

Modelled from the spec (§3 WorkCalendarPolicy, §4.1 Calendar/Constants
module): the source file `src/lib/payroll/constants.ts` is missing from
the repository snapshot. -/

/-- Gregorian leap-year test. -/
def isLeapYear (y : ℕ) : Bool := (y % 4 == 0 && y % 100 != 0) || y % 400 == 0

/-- Number of days in a Gregorian month (`month` is 1-based). -/
def daysInMonth (y m : ℕ) : ℕ :=
  if m = 2 then (if isLeapYear y then 29 else 28)
  else if m = 4 ∨ m = 6 ∨ m = 9 ∨ m = 11 then 30
  else 31

/-- Absolute day number of a Gregorian civil date (days since
0000-03-01), valid for years ≥ 1 and months 1–12; the standard
`days_from_civil` computation specialised to natural numbers. -/
def civilToDay (y m d : ℕ) : ℕ :=
  let ys : ℕ := if m ≤ 2 then y - 1 else y
  let mp : ℕ := if m ≤ 2 then m + 9 else m - 3
  let doy : ℕ := (153 * mp + 2) / 5 + (d - 1)
  ys * 365 + (ys / 4 - ys / 100 + ys / 400) + doy

/-- Day of the week of an absolute day number, in JavaScript's
`Date.getDay()` convention: 0 = Sunday, …, 6 = Saturday.
(Day 0 = 0000-03-01 was a Wednesday, JS index 3.) -/
def dayOfWeek (n : ℕ) : ℕ := (n + 3) % 7

/-- Year of an absolute day number (inverse of `civilToDay`); the
standard `civil_from_days` year extraction. -/
def dayToYear (n : ℕ) : ℕ :=
  let era : ℕ := n / 146097
  let doe : ℕ := n % 146097
  let yoe : ℕ := (doe - doe / 1460 + doe / 36524 - doe / 146096) / 365
  let y : ℕ := yoe + era * 400
  let doy : ℕ := doe - (365 * yoe + (yoe / 4 - yoe / 100))
  let mp : ℕ := (5 * doy + 2) / 153
  if 10 ≤ mp then y + 1 else y

/-- Modelled from the spec: the immutable work-calendar configuration —
standard hours per day, overtime multiplier, weekend definition,
public-holiday set, default annual leave allowance (§3). Weekend days
use the JS `getDay()` convention; holidays are absolute day numbers. -/
structure WorkCalendarPolicy where
  standardHoursPerDay : ℚ
  overtimeMultiplier : ℚ
  weekendDays : List ℕ
  publicHolidays : List ℕ
  defaultAnnualLeaveDays : ℚ
deriving Repr

/-- Modelled from the spec: `isWorkDay(date)` from the missing
`constants.ts` — true unless the date falls on the policy's weekend
days or is in the public-holiday set (§4.1). -/
def isWorkDay (pol : WorkCalendarPolicy) (n : ℕ) : Bool :=
  !(pol.weekendDays.contains (dayOfWeek n)) && !(pol.publicHolidays.contains n)

/-- Modelled from the spec: `countWorkDaysInMonth(year, month)` from the
missing `constants.ts` — the count of dates in the month for which
`isWorkDay` holds (§4.1). -/
def countWorkDaysInMonth (pol : WorkCalendarPolicy) (year month : ℕ) : ℕ :=
  ((List.range (daysInMonth year month)).filter
    (fun i => isWorkDay pol (civilToDay year month (i + 1)))).length

/-! ## Payroll value types (from `src/lib/payroll/types.ts` usage sites) -/

/-- Merged day classification used by the attendance aggregator. -/
inductive DayStatus
  | FULL_DAY
  | HALF_DAY_AM
  | HALF_DAY_PM
  | LEAVE_FULL
  | LEAVE_HALF_AM
  | LEAVE_HALF_PM
  | REWARD
  | ABSENT
deriving DecidableEq, Repr

open DayStatus

/-- One calendar date's derived classification, as produced by the
attendance-session service's `getMonthSummary` and consumed by
`calculateAttendance`.  `date` is an absolute day number. -/
structure DayAttendanceSummary where
  date : ℕ
  isWorkDay : Bool
  dayStatus : DayStatus
  workedMinutes : ℚ
  expectedMinutes : ℚ
deriving DecidableEq, Repr

/-- Aggregated attendance totals for one employee/month
(`AttendanceCalculation` in `types.ts`). -/
structure AttendanceCalculation where
  totalWorkedDays : ℚ
  totalWorkedHours : ℚ
  totalWorkedMinutes : ℚ
  expectedWorkDays : ℕ
  expectedWorkHours : ℚ
  absentDays : ℚ
  absentHours : ℚ
  partialDays : ℚ
  fullDays : ℚ
  overtimeHours : ℚ
  dailySummaries : List DayAttendanceSummary
deriving DecidableEq, Repr

/-- Leave totals for one employee/month (`LeaveSummary` in `types.ts`). -/
structure LeaveSummary where
  paidDays : ℚ
  unpaidDays : ℚ
  sickDays : ℚ
  maternityDays : ℚ
  otherDays : ℚ
  totalDays : ℚ
  salaryDeductionDays : ℚ
deriving DecidableEq, Repr

/-- Reward totals for one employee/month (`RewardSummary` in `types.ts`);
the `records` list of the source carries no payroll information and is
omitted. -/
structure RewardSummary where
  totalDays : ℚ
  totalBonus : ℚ
deriving DecidableEq, Repr

/-- Per-employee contract snapshot (`EmploymentTerms` in `types.ts`);
the contract-type tag plays no role in `computeSalary`. -/
structure EmploymentTerms where
  baseSalary : ℚ
  hourlyRate : ℚ
deriving DecidableEq, Repr

/-- Final output of the salary calculator (`SalaryBreakdown`). -/
structure SalaryBreakdown where
  baseSalary : ℚ
  dailyRate : ℚ
  hourlyRate : ℚ
  workedDaysPay : ℚ
  overtimePay : ℚ
  rewardBonus : ℚ
  absenceDeduction : ℚ
  unpaidLeaveDeduction : ℚ
  totalDeductions : ℚ
  paidLeaveDays : ℚ
  unpaidLeaveDays : ℚ
  sickLeaveDays : ℚ
  otherLeaveDays : ℚ
  rewardDays : ℚ
  grossSalary : ℚ
  netSalary : ℚ
deriving DecidableEq, Repr

/-! ## Salary calculator (`src/lib/payroll/salary-calculator.ts`) -/

/-- `computeSalary` from `salary-calculator.ts`, translated line by
line; the missing constants `STANDARD_HOURS_PER_DAY` and
`OVERTIME_MULTIPLIER` are read from the policy. -/
def computeSalary (pol : WorkCalendarPolicy) (terms : EmploymentTerms)
    (attendance : AttendanceCalculation) (leaves : LeaveSummary)
    (rewards : RewardSummary) (year month : ℕ) : SalaryBreakdown :=
  let workDaysInMonth : ℚ := (countWorkDaysInMonth pol year month : ℚ)
  let baseSalary := terms.baseSalary
  let dailyRate := baseSalary / workDaysInMonth
  let hourlyRate := if terms.hourlyRate > 0
    then terms.hourlyRate
    else dailyRate / pol.standardHoursPerDay
  let workedDaysPay := baseSalary
  let overtimePay := round2 (attendance.overtimeHours * hourlyRate * pol.overtimeMultiplier)
  let rewardBonus := round2 rewards.totalBonus
  let absenceDeduction := round2 (attendance.absentDays * dailyRate)
  let partialDeduction := round2 (attendance.partialDays * dailyRate * (1 / 2))
  let unpaidLeaveDeduction := round2 (leaves.unpaidDays * dailyRate)
  let totalDeductions := round2 (absenceDeduction + partialDeduction + unpaidLeaveDeduction)
  let grossSalary := round2 (workedDaysPay + overtimePay + rewardBonus)
  let netSalary := round2 (grossSalary - totalDeductions)
  { baseSalary := baseSalary
    dailyRate := round2 dailyRate
    hourlyRate := round2 hourlyRate
    workedDaysPay := round2 workedDaysPay
    overtimePay := overtimePay
    rewardBonus := rewardBonus
    absenceDeduction := round2 (absenceDeduction + partialDeduction)
    unpaidLeaveDeduction := unpaidLeaveDeduction
    totalDeductions := totalDeductions
    paidLeaveDays := leaves.paidDays
    unpaidLeaveDays := leaves.unpaidDays
    sickLeaveDays := leaves.sickDays
    otherLeaveDays := leaves.otherDays + leaves.maternityDays
    rewardDays := rewards.totalDays
    grossSalary := grossSalary
    netSalary := netSalary }

/-! ## Attendance aggregator (`calculateAttendance` in
`src/lib/payroll/leave-calculator.ts`) -/

/-- Loop state of `calculateAttendance`'s `for (const day of
dailySummaries)` accumulation. -/
structure AttAcc where
  totalWorkedMinutes : ℚ
  absentDays : ℚ
  fullDays : ℚ
  partialDays : ℚ
  overtimeMinutes : ℚ
deriving DecidableEq, Repr

/-- One iteration of `calculateAttendance`'s per-day `switch`. -/
def attStep (acc : AttAcc) (day : DayAttendanceSummary) : AttAcc :=
  if !day.isWorkDay then acc else
  match day.dayStatus with
  | .FULL_DAY =>
      { acc with
        fullDays := acc.fullDays + 1
        totalWorkedMinutes := acc.totalWorkedMinutes + day.workedMinutes
        overtimeMinutes := if day.workedMinutes > day.expectedMinutes
          then acc.overtimeMinutes + (day.workedMinutes - day.expectedMinutes)
          else acc.overtimeMinutes }
  | .HALF_DAY_AM =>
      { acc with
        partialDays := acc.partialDays + 1
        totalWorkedMinutes := acc.totalWorkedMinutes + day.workedMinutes }
  | .HALF_DAY_PM =>
      { acc with
        partialDays := acc.partialDays + 1
        totalWorkedMinutes := acc.totalWorkedMinutes + day.workedMinutes }
  | .LEAVE_FULL =>
      { acc with
        fullDays := acc.fullDays + 1
        totalWorkedMinutes := acc.totalWorkedMinutes + day.expectedMinutes }
  | .LEAVE_HALF_AM =>
      { acc with
        fullDays := acc.fullDays + 1 / 2
        partialDays := acc.partialDays + 1 / 2
        totalWorkedMinutes := acc.totalWorkedMinutes + day.workedMinutes }
  | .LEAVE_HALF_PM =>
      { acc with
        fullDays := acc.fullDays + 1 / 2
        partialDays := acc.partialDays + 1 / 2
        totalWorkedMinutes := acc.totalWorkedMinutes + day.workedMinutes }
  | .REWARD =>
      { acc with
        fullDays := acc.fullDays + 1
        totalWorkedMinutes := acc.totalWorkedMinutes + day.expectedMinutes }
  | .ABSENT =>
      { acc with absentDays := acc.absentDays + 1 }

/-- `calculateAttendance` from `leave-calculator.ts`.  The source is an
async function fetching `dailySummaries` from the attendance-session
service (absent from the snapshot); here the fetched list is an
argument and the remainder is translated line by line.  The missing
constant `STANDARD_HOURS_PER_DAY` is read from the policy. -/
def calculateAttendance (pol : WorkCalendarPolicy)
    (dailySummaries : List DayAttendanceSummary) (year month : ℕ) :
    AttendanceCalculation :=
  let expectedWorkDays := countWorkDaysInMonth pol year month
  let expectedWorkHours : ℚ := (expectedWorkDays : ℚ) * pol.standardHoursPerDay
  let acc := dailySummaries.foldl attStep ⟨0, 0, 0, 0, 0⟩
  { totalWorkedDays := acc.fullDays + acc.partialDays * (1 / 2)
    totalWorkedHours := round2 (acc.totalWorkedMinutes / 60)
    totalWorkedMinutes := acc.totalWorkedMinutes
    expectedWorkDays := expectedWorkDays
    expectedWorkHours := expectedWorkHours
    absentDays := acc.absentDays
    absentHours := round2 (acc.absentDays * pol.standardHoursPerDay)
    partialDays := acc.partialDays
    fullDays := acc.fullDays
    overtimeHours := round2 (acc.overtimeMinutes / 60)
    dailySummaries := dailySummaries }

/-! ## Spec-side variants of the salary derivation (for the rounding
claim).  Both follow the wording of §4.5 step by step; they differ only
in whether the daily/hourly rates consumed by steps 3 and 5–7 are the
2-decimal-rounded values. -/

/-- Salary derivation as the spec's rounding invariant describes it:
every monetary quantity — including the `dailyRate` and `hourlyRate`
consumed by the overtime and deduction steps — is rounded to 2 decimal
places before being consumed by the next step. -/
def computeSalarySpecRoundedRates (pol : WorkCalendarPolicy)
    (terms : EmploymentTerms) (attendance : AttendanceCalculation)
    (leaves : LeaveSummary) (rewards : RewardSummary) (year month : ℕ) :
    SalaryBreakdown :=
  let workDaysInMonth : ℚ := (countWorkDaysInMonth pol year month : ℚ)
  let baseSalary := terms.baseSalary
  let dailyRate := round2 (baseSalary / workDaysInMonth)
  let hourlyRate := round2 (if terms.hourlyRate > 0
    then terms.hourlyRate
    else dailyRate / pol.standardHoursPerDay)
  let workedDaysPay := baseSalary
  let overtimePay := round2 (attendance.overtimeHours * hourlyRate * pol.overtimeMultiplier)
  let rewardBonus := round2 rewards.totalBonus
  let absenceDeduction := round2 (attendance.absentDays * dailyRate)
  let partialDeduction := round2 (attendance.partialDays * dailyRate * (1 / 2))
  let unpaidLeaveDeduction := round2 (leaves.unpaidDays * dailyRate)
  let totalDeductions := round2 (absenceDeduction + partialDeduction + unpaidLeaveDeduction)
  let grossSalary := round2 (workedDaysPay + overtimePay + rewardBonus)
  let netSalary := round2 (grossSalary - totalDeductions)
  { baseSalary := baseSalary
    dailyRate := dailyRate
    hourlyRate := hourlyRate
    workedDaysPay := round2 workedDaysPay
    overtimePay := overtimePay
    rewardBonus := rewardBonus
    absenceDeduction := round2 (absenceDeduction + partialDeduction)
    unpaidLeaveDeduction := unpaidLeaveDeduction
    totalDeductions := totalDeductions
    paidLeaveDays := leaves.paidDays
    unpaidLeaveDays := leaves.unpaidDays
    sickLeaveDays := leaves.sickDays
    otherLeaveDays := leaves.otherDays + leaves.maternityDays
    rewardDays := rewards.totalDays
    grossSalary := grossSalary
    netSalary := netSalary }

/-- Salary derivation following §4.5's steps with each step's result
rounded to 2 decimals, but with the `dailyRate` and `hourlyRate`
consumed by steps 3 and 5–7 left as the raw (unrounded) quotients; the
rounded rates appear only in the reported `dailyRate`/`hourlyRate`
fields. -/
def computeSalarySpecRawRates (pol : WorkCalendarPolicy)
    (terms : EmploymentTerms) (attendance : AttendanceCalculation)
    (leaves : LeaveSummary) (rewards : RewardSummary) (year month : ℕ) :
    SalaryBreakdown :=
  let workDaysInMonth : ℚ := (countWorkDaysInMonth pol year month : ℚ)
  let baseSalary := terms.baseSalary
  let dailyRate := baseSalary / workDaysInMonth
  let hourlyRate := if terms.hourlyRate > 0
    then terms.hourlyRate
    else dailyRate / pol.standardHoursPerDay
  let workedDaysPay := baseSalary
  let overtimePay := round2 (attendance.overtimeHours * hourlyRate * pol.overtimeMultiplier)
  let rewardBonus := round2 rewards.totalBonus
  let absenceDeduction := round2 (attendance.absentDays * dailyRate)
  let partialDeduction := round2 (attendance.partialDays * dailyRate * (1 / 2))
  let unpaidLeaveDeduction := round2 (leaves.unpaidDays * dailyRate)
  let totalDeductions := round2 (absenceDeduction + partialDeduction + unpaidLeaveDeduction)
  let grossSalary := round2 (workedDaysPay + overtimePay + rewardBonus)
  let netSalary := round2 (grossSalary - totalDeductions)
  { baseSalary := baseSalary
    dailyRate := round2 dailyRate
    hourlyRate := round2 hourlyRate
    workedDaysPay := round2 workedDaysPay
    overtimePay := overtimePay
    rewardBonus := rewardBonus
    absenceDeduction := round2 (absenceDeduction + partialDeduction)
    unpaidLeaveDeduction := unpaidLeaveDeduction
    totalDeductions := totalDeductions
    paidLeaveDays := leaves.paidDays
    unpaidLeaveDays := leaves.unpaidDays
    sickLeaveDays := leaves.sickDays
    otherLeaveDays := leaves.otherDays + leaves.maternityDays
    rewardDays := rewards.totalDays
    grossSalary := grossSalary
    netSalary := netSalary }

/-! ## Leave service (`src/lib/services/leave-service.ts`)

Database tables become lists of rows; dates are embedded at day
granularity (the service compares dates and iterates them day by day).
-/

/-- Leave types (`LeaveType` in `types.ts`). -/
inductive LeaveType
  | PAID
  | UNPAID
  | MATERNITE
  | MALADIE
  | PREAVIS
  | REWARD
deriving DecidableEq, Repr

/-- Leave request statuses (`EN_ATTENTE` = pending, `VALIDE` = approved,
`REFUSE` = rejected). -/
inductive LeaveStatus
  | EN_ATTENTE
  | VALIDE
  | REFUSE
deriving DecidableEq, Repr

/-- Session slots (`SessionType` in `types.ts`). -/
inductive SessionType
  | MORNING
  | AFTERNOON
deriving DecidableEq, Repr

/-- Attendance-session status tags (`AttendanceStatus` in `types.ts`). -/
inductive AttendanceStatus
  | FULL
  | PARTIAL
  | REWARD
  | LEAVE_FULL
  | LEAVE_HALF
  | ABSENT
deriving DecidableEq, Repr

/-- Reward-day statuses. -/
inductive RewardStatus
  | APPROVED
  | REVOKED
deriving DecidableEq, Repr

/-- A row of the `demandeConge` table. -/
structure LeaveRow where
  id : ℕ
  userId : ℕ
  type : LeaveType
  dateDebut : ℕ
  dateFin : ℕ
  isHalfDay : Bool
  halfDaySession : Option SessionType
  status : LeaveStatus
  commentaire : Option String
  impactOnSalary : Bool
  durationDays : Option ℚ
deriving DecidableEq, Repr

/-- A row of the `employe` table (only the field the leave service
reads). -/
structure EmployeRow where
  userId : ℕ
  annualLeave : Option ℚ
deriving DecidableEq, Repr

/-- A row of the `rewardDay` table. -/
structure RewardRow where
  id : ℕ
  userId : ℕ
  date : ℕ
  reason : String
  grantedById : ℕ
  salaryImpact : ℚ
  status : RewardStatus
deriving DecidableEq, Repr

/-- A row of the `attendanceSession` table (the fields the services
write; check-in/out timestamps are not touched by the modelled code). -/
structure SessionRow where
  userId : ℕ
  date : ℕ
  sessionType : SessionType
  status : AttendanceStatus
  durationMinutes : ℚ
deriving DecidableEq, Repr

/-- The persistent state the modelled services read and write. -/
structure DB where
  demandeConge : List LeaveRow
  employe : List EmployeRow
  rewardDay : List RewardRow
  attendanceSession : List SessionRow
  nextId : ℕ
deriving DecidableEq, Repr

/-- Modelled from the spec: `ANNUAL_LEAVE_TYPES` from the missing
`constants.ts` — the annual-leave-counted types.  The balance that the
check compares against counts `PAID` durations only (§4.3), so `PAID`
is its one certain member; no theorem below depends on further
members. -/
def ANNUAL_LEAVE_TYPES : List LeaveType := [.PAID]

/-- Modelled from the spec: `PAID_LEAVE_TYPES` from the missing
`constants.ts` — the paid-leave-type set used only to derive
`impactOnSalary` (§4.3).  Membership beyond `PAID`/`REWARD` is not
pinned by the spec and no theorem below depends on it. -/
def PAID_LEAVE_TYPES : List LeaveType := [.PAID, .REWARD]

/-- `countWorkDaysBetween` from `leave-service.ts`: work days between
two dates, inclusive (0 when the range is empty). -/
def countWorkDaysBetween (pol : WorkCalendarPolicy) (startDate endDate : ℕ) : ℕ :=
  ((List.range (endDate + 1 - startDate)).filter
    (fun i => isWorkDay pol (startDate + i))).length

/-- `calculateLeaveDuration` from `leave-service.ts`. -/
def calculateLeaveDuration (pol : WorkCalendarPolicy) (leave : LeaveRow) : ℚ :=
  if leave.isHalfDay then 1 / 2
  else countWorkDaysBetween pol leave.dateDebut leave.dateFin

/-- Per-type usage breakdown of `getLeaveBalance` (`byType` in the
source, a `Record<LeaveType, number>`). -/
structure LeaveByType where
  PAID : ℚ
  UNPAID : ℚ
  MATERNITE : ℚ
  MALADIE : ℚ
  PREAVIS : ℚ
  REWARD : ℚ
deriving DecidableEq, Repr

/-- Result shape of `getLeaveBalance` (`LeaveBalance` in `types.ts`). -/
structure LeaveBalance where
  annualAllowance : ℚ
  used : ℚ
  pending : ℚ
  remaining : ℚ
  byType : LeaveByType
deriving DecidableEq, Repr

/-- Add `days` to the bucket of `t` in the per-type breakdown
(`byType[leave.type] += days`). -/
def bumpByType (bt : LeaveByType) (t : LeaveType) (days : ℚ) : LeaveByType :=
  match t with
  | .PAID => { bt with PAID := bt.PAID + days }
  | .UNPAID => { bt with UNPAID := bt.UNPAID + days }
  | .MATERNITE => { bt with MATERNITE := bt.MATERNITE + days }
  | .MALADIE => { bt with MALADIE := bt.MALADIE + days }
  | .PREAVIS => { bt with PREAVIS := bt.PREAVIS + days }
  | .REWARD => { bt with REWARD := bt.REWARD + days }

/-- Effective duration of a stored leave row:
`leave.durationDays ?? this.calculateLeaveDuration(leave)`. -/
def effectiveDuration (pol : WorkCalendarPolicy) (leave : LeaveRow) : ℚ :=
  leave.durationDays.getD (calculateLeaveDuration pol leave)

/-- `getLeaveBalance` from `leave-service.ts`, translated loop by loop.
The `?? 26` default for a missing employee profile is the source's own
literal. -/
def getLeaveBalance (pol : WorkCalendarPolicy) (db : DB) (userId year : ℕ) :
    LeaveBalance :=
  let annualAllowance : ℚ :=
    match db.employe.find? (fun e => decide (e.userId = userId)) with
    | some e => e.annualLeave.getD 26
    | none => 26
  let yearStart := civilToDay year 1 1
  let yearEnd := civilToDay year 12 31
  let usedLeaves := db.demandeConge.filter (fun l =>
    decide (l.userId = userId ∧ l.status = .VALIDE ∧
      yearStart ≤ l.dateDebut ∧ l.dateDebut ≤ yearEnd))
  let pendingLeaves := db.demandeConge.filter (fun l =>
    decide (l.userId = userId ∧ l.status = .EN_ATTENTE ∧
      yearStart ≤ l.dateDebut ∧ l.dateDebut ≤ yearEnd))
  let byType := usedLeaves.foldl
    (fun bt l => bumpByType bt l.type (effectiveDuration pol l))
    ⟨0, 0, 0, 0, 0, 0⟩
  let totalUsed := usedLeaves.foldl
    (fun s l => if l.type = .PAID then s + effectiveDuration pol l else s) 0
  let totalPending := pendingLeaves.foldl
    (fun s l => if l.type = .PAID then s + effectiveDuration pol l else s) 0
  { annualAllowance := annualAllowance
    used := totalUsed
    pending := totalPending
    remaining := annualAllowance - totalUsed - totalPending
    byType := byType }

/-- The error outcomes of `createLeaveRequest`, one per French error
string of the source; the insufficient-balance error carries the
`remaining`/`requested` figures interpolated into the source's
message. -/
inductive LeaveError
  | halfDayNotSameDay
  | halfDayNoSession
  | endBeforeStart
  | noWorkingDay
  | overlappingRequest
  | insufficientBalance (remaining requested : ℚ)
deriving DecidableEq, Repr

/-- Result of `createLeaveRequest`
(`{ success: boolean; leave?; error? }`). -/
inductive CreateLeaveResult
  | ok (leave : LeaveRow)
  | err (e : LeaveError)
deriving DecidableEq, Repr

/-- Parameters of `createLeaveRequest`. -/
structure LeaveReqParams where
  userId : ℕ
  type : LeaveType
  startDate : ℕ
  endDate : ℕ
  isHalfDay : Bool := false
  halfDaySession : Option SessionType := none
  reason : Option String := none
deriving DecidableEq, Repr

/-- `createLeaveRequest` from `leave-service.ts`: the validation chain
(half-day shape, date order, positive duration, overlap, balance), then
persistence of the `EN_ATTENTE` row.  Returns the result together with
the resulting state. -/
def createLeaveRequest (pol : WorkCalendarPolicy) (db : DB)
    (p : LeaveReqParams) : CreateLeaveResult × DB :=
  if p.isHalfDay ∧ p.startDate ≠ p.endDate then (.err .halfDayNotSameDay, db)
  else if p.isHalfDay ∧ p.halfDaySession = none then (.err .halfDayNoSession, db)
  else if p.endDate < p.startDate then (.err .endBeforeStart, db)
  else
    let durationDays : ℚ := if p.isHalfDay then 1 / 2
      else countWorkDaysBetween pol p.startDate p.endDate
    if durationDays ≤ 0 then (.err .noWorkingDay, db)
    else
      match db.demandeConge.find? (fun l =>
        decide (l.userId = p.userId ∧
          (l.status = .EN_ATTENTE ∨ l.status = .VALIDE) ∧
          l.dateDebut ≤ p.endDate ∧ p.startDate ≤ l.dateFin)) with
      | some _ => (.err .overlappingRequest, db)
      | none =>
        let balanceError : Option LeaveError :=
          if p.type ∈ ANNUAL_LEAVE_TYPES then
            let balance := getLeaveBalance pol db p.userId (dayToYear p.startDate)
            if balance.remaining < durationDays then
              some (.insufficientBalance balance.remaining durationDays)
            else none
          else none
        match balanceError with
        | some e => (.err e, db)
        | none =>
          let leave : LeaveRow :=
            { id := db.nextId
              userId := p.userId
              type := p.type
              dateDebut := p.startDate
              dateFin := p.endDate
              isHalfDay := p.isHalfDay
              halfDaySession := p.halfDaySession
              status := .EN_ATTENTE
              commentaire := p.reason
              impactOnSalary := !(PAID_LEAVE_TYPES.contains p.type)
              durationDays := some durationDays }
          (.ok leave,
            { db with
              demandeConge := db.demandeConge ++ [leave]
              nextId := db.nextId + 1 })

/-- `getMonthlySummary` from `leave-service.ts`: approved leaves
intersecting the month, clipped to the month window, accumulated into
per-type buckets. -/
def getMonthlySummary (pol : WorkCalendarPolicy) (db : DB)
    (userId year month : ℕ) : LeaveSummary :=
  let startDate := civilToDay year month 1
  let endDate := civilToDay year month (daysInMonth year month)
  let leaves := db.demandeConge.filter (fun l =>
    decide (l.userId = userId ∧ l.status = .VALIDE ∧
      l.dateDebut ≤ endDate ∧ startDate ≤ l.dateFin))
  leaves.foldl (fun s l =>
    let leaveStart := max startDate l.dateDebut
    let leaveEnd := min endDate l.dateFin
    let days : ℚ := if l.isHalfDay then 1 / 2
      else countWorkDaysBetween pol leaveStart leaveEnd
    let s2 : LeaveSummary :=
      match l.type with
      | .PAID => { s with paidDays := s.paidDays + days }
      | .REWARD => { s with paidDays := s.paidDays + days }
      | .UNPAID => { s with
          unpaidDays := s.unpaidDays + days
          salaryDeductionDays := s.salaryDeductionDays + days }
      | .MALADIE => { s with sickDays := s.sickDays + days }
      | .MATERNITE => { s with maternityDays := s.maternityDays + days }
      | .PREAVIS => { s with otherDays := s.otherDays + days }
    { s2 with totalDays := s2.totalDays + days })
    ⟨0, 0, 0, 0, 0, 0, 0⟩

/-! ## Reward service (the reward service file of the repository) -/

/-- Parameters of `grantReward` (`salaryImpact` defaults to 0 as in the
source). -/
structure GrantRewardParams where
  userId : ℕ
  date : ℕ
  reason : String
  grantedById : ℕ
  salaryImpact : ℚ := 0
deriving DecidableEq, Repr

/-- Result of `grantReward`; `duplicate` is the source's
one-reward-per-day rejection. -/
inductive GrantRewardResult
  | ok (reward : RewardRow)
  | duplicate
deriving DecidableEq, Repr

/-- `prisma.attendanceSession.upsert` keyed on
`(userId, date, sessionType)`: update the matching rows' status and
duration if one exists, otherwise append a fresh row. -/
def upsertSession (sessions : List SessionRow) (userId date : ℕ)
    (st : SessionType) (status : AttendanceStatus) (minutes : ℚ) :
    List SessionRow :=
  if sessions.any (fun s =>
      decide (s.userId = userId ∧ s.date = date ∧ s.sessionType = st)) then
    sessions.map (fun s =>
      if s.userId = userId ∧ s.date = date ∧ s.sessionType = st then
        { s with status := status, durationMinutes := minutes }
      else s)
  else sessions ++ [⟨userId, date, st, status, minutes⟩]

/-- `grantReward` from the reward service: duplicate check on the exact
`(userId, date)` pair, creation with status `APPROVED`, and the
synthetic full-day `REWARD` session upserts (240 minutes per slot) when
the date is a work day. -/
def grantReward (pol : WorkCalendarPolicy) (db : DB)
    (p : GrantRewardParams) : GrantRewardResult × DB :=
  match db.rewardDay.find? (fun r =>
      decide (r.userId = p.userId ∧ r.date = p.date)) with
  | some _ => (.duplicate, db)
  | none =>
    let reward : RewardRow :=
      { id := db.nextId
        userId := p.userId
        date := p.date
        reason := p.reason
        grantedById := p.grantedById
        salaryImpact := p.salaryImpact
        status := .APPROVED }
    let sessions :=
      if isWorkDay pol p.date then
        upsertSession
          (upsertSession db.attendanceSession p.userId p.date .MORNING .REWARD 240)
          p.userId p.date .AFTERNOON .REWARD 240
      else db.attendanceSession
    (.ok reward,
      { db with
        rewardDay := db.rewardDay ++ [reward]
        attendanceSession := sessions
        nextId := db.nextId + 1 })

/-- `revokeReward` from the reward service: `prisma.rewardDay.update`
(sets status `REVOKED`, throws — here `none` — when the id is unknown)
followed by `deleteMany` of the `REWARD`-status sessions of that
employee and date. -/
def revokeReward (db : DB) (rewardId : ℕ) : Option (RewardRow × DB) :=
  match db.rewardDay.find? (fun r => decide (r.id = rewardId)) with
  | none => none
  | some r =>
    some ({ r with status := .REVOKED },
      { db with
        rewardDay := db.rewardDay.map (fun x =>
          if x.id = rewardId then { x with status := .REVOKED } else x)
        attendanceSession := db.attendanceSession.filter (fun s =>
          !decide (s.userId = r.userId ∧ s.date = r.date ∧ s.status = .REWARD)) })

/-! ## Concrete instances used by the scenario claims -/

/-- Sample calendar policy for the concrete scenarios: 8-hour days,
1.25 overtime multiplier, Saturday/Sunday weekend, no public holidays,
26 annual leave days. -/
def samplePolicy : WorkCalendarPolicy := ⟨8, 5 / 4, [0, 6], [], 26⟩

/-- Empty leave aggregate. -/
def emptyLeaveSummary : LeaveSummary := ⟨0, 0, 0, 0, 0, 0, 0⟩

/-- Empty reward aggregate. -/
def emptyRewardSummary : RewardSummary := ⟨0, 0⟩

/-- February 2025 (20 work days under `samplePolicy`): 18 full days, one
morning half day, one absent day, plus the 8 weekend dates. -/
def febDailySummaries : List DayAttendanceSummary :=
  ((List.range 18).map (fun i =>
    ⟨civilToDay 2025 2 1 + i, true, .FULL_DAY, 480, 480⟩)) ++
  [⟨civilToDay 2025 2 26, true, .HALF_DAY_AM, 240, 480⟩,
   ⟨civilToDay 2025 2 27, true, .ABSENT, 0, 480⟩] ++
  ((List.range 8).map (fun i =>
    ⟨civilToDay 2025 3 1 + 100 + i, false, .ABSENT, 0, 0⟩))

/-- Aggregated attendance of the February 2025 scenario. -/
def febAttendance : AttendanceCalculation :=
  calculateAttendance samplePolicy febDailySummaries 2025 2

/-- Attendance aggregate with 2 absent days out of 22 expected work days
(September 2025 under `samplePolicy`), used by the rounding-stability
scenario. -/
def septTwoAbsent : AttendanceCalculation :=
  ⟨20, 160, 9600, 22, 176, 2, 16, 0, 20, 0, []⟩

/-- Twenty work-day entries, all `FULL_DAY` (a fully worked
February 2025). -/
def fullFebList : List DayAttendanceSummary :=
  (List.range 20).map (fun i => ⟨i, true, .FULL_DAY, 480, 480⟩)

/-- Twenty work-day entries: one morning half day and nineteen full
days. -/
def halfFebList : List DayAttendanceSummary :=
  ⟨0, true, .HALF_DAY_AM, 240, 480⟩ ::
    (List.range 19).map (fun i => ⟨i + 1, true, .FULL_DAY, 480, 480⟩)

/-- An empty database state. -/
def emptyDB : DB := ⟨[], [], [], [], 1⟩

/-- Database with one approved paid leave on Monday 2025-09-08 for
employee 1. -/
def overlapDB : DB :=
  ⟨[⟨1, 1, .PAID, civilToDay 2025 9 8, civilToDay 2025 9 8, false, none,
      .VALIDE, none, false, some 1⟩],
   [⟨1, some 26⟩], [], [], 2⟩

/-- A paid-leave request for 2025-09-05 through 2025-09-09, overlapping
the approved leave of `overlapDB` on 2025-09-08. -/
def overlapReq : LeaveReqParams :=
  { userId := 1, type := .PAID
    startDate := civilToDay 2025 9 5, endDate := civilToDay 2025 9 9 }

/-- Database for the balance scenario: allowance 26, an approved paid
leave of 10 days and a pending paid leave of 3 days, both in 2025 and
before September. -/
def balanceDB : DB :=
  ⟨[⟨1, 1, .PAID, civilToDay 2025 3 3, civilToDay 2025 3 14, false, none,
      .VALIDE, none, false, some 10⟩,
    ⟨2, 1, .PAID, civilToDay 2025 4 7, civilToDay 2025 4 9, false, none,
      .EN_ATTENTE, none, false, some 3⟩],
   [⟨1, some 26⟩], [], [], 3⟩

/-- A 14-work-day paid-leave request (2025-09-01 through 2025-09-18). -/
def balanceReq : LeaveReqParams :=
  { userId := 1, type := .PAID
    startDate := civilToDay 2025 9 1, endDate := civilToDay 2025 9 18 }

/-- A half-day unpaid-leave request on Saturday 2025-09-06 (a non-work
day under `samplePolicy`). -/
def weekendHalfReq : LeaveReqParams :=
  { userId := 1, type := .UNPAID
    startDate := civilToDay 2025 9 6, endDate := civilToDay 2025 9 6
    isHalfDay := true, halfDaySession := some .MORNING }

/-- The approved half-day unpaid leave row on Saturday 2025-09-06. -/
def weekendHalfRow : LeaveRow :=
  ⟨5, 1, .UNPAID, civilToDay 2025 9 6, civilToDay 2025 9 6, true,
    some .MORNING, .VALIDE, none, true, some (1 / 2)⟩

/-- Database holding only `weekendHalfRow`. -/
def weekendHalfDB : DB := ⟨[weekendHalfRow], [], [], [], 6⟩

/-- A reward grant on Monday 2025-09-08 (a work day) with a bonus of
50. -/
def sampleGrant : GrantRewardParams :=
  { userId := 1, date := civilToDay 2025 9 8, reason := "exceptional work"
    grantedById := 2, salaryImpact := 50 }

/-- A reward already granted to employee 1 on 2025-09-08. -/
def priorReward : RewardRow :=
  ⟨1, 1, civilToDay 2025 9 8, "prior reward", 2, 10, .APPROVED⟩

/-- Database that already holds `priorReward`. -/
def dupRewardDB : DB := ⟨[], [], [priorReward], [], 2⟩

/-- The conserved quantity of the conservation claim, on the loop
state: fullDays + partialDays·0.5 + absentDays. -/
def conservedDays (a : AttAcc) : ℚ :=
  a.fullDays + a.partialDays * (1 / 2) + a.absentDays

/-- Day statuses that consume a whole work day of the conservation
budget (no half-day component). -/
def NonPartialStatus (s : DayStatus) : Prop :=
  s = .FULL_DAY ∨ s = .LEAVE_FULL ∨ s = .REWARD ∨ s = .ABSENT

instance (s : DayStatus) : Decidable (NonPartialStatus s) :=
  inferInstanceAs (Decidable (s = .FULL_DAY ∨ s = .LEAVE_FULL ∨ s = .REWARD ∨ s = .ABSENT))

/-- Sum of the durations of the employee's APPROVED (VALIDE) PAID
leaves starting in the year — the claim's characterisation of the
`used` figure. -/
def usedPaidSum (pol : WorkCalendarPolicy) (db : DB) (userId year : ℕ) : ℚ :=
  ((db.demandeConge.filter (fun l =>
      decide (l.userId = userId ∧ l.status = .VALIDE ∧
        civilToDay year 1 1 ≤ l.dateDebut ∧ l.dateDebut ≤ civilToDay year 12 31 ∧
        l.type = .PAID))).map (effectiveDuration pol)).sum

/-- Sum of the durations of the employee's PENDING (EN_ATTENTE) PAID
leaves starting in the year — the claim's characterisation of the
`pending` figure. -/
def pendingPaidSum (pol : WorkCalendarPolicy) (db : DB) (userId year : ℕ) : ℚ :=
  ((db.demandeConge.filter (fun l =>
      decide (l.userId = userId ∧ l.status = .EN_ATTENTE ∧
        civilToDay year 1 1 ≤ l.dateDebut ∧ l.dateDebut ≤ civilToDay year 12 31 ∧
        l.type = .PAID))).map (effectiveDuration pol)).sum

/-! ## Rounding lemmas -/

theorem ratFloor_eq_intFloor (q : ℚ) : q.floor = ⌊q⌋ := by
  rw [Rat.floor_def', Rat.floor_def]

theorem round2_isCent (q : ℚ) : IsCent (round2 q) := ⟨(q * 100 + 1 / 2).floor, rfl⟩

theorem IsCent.add {a b : ℚ} (ha : IsCent a) (hb : IsCent b) : IsCent (a + b) := by
  obtain ⟨x, hx⟩ := ha
  obtain ⟨y, hy⟩ := hb
  exact ⟨x + y, by push_cast [hx, hy]; ring⟩

theorem round2_eq_self {q : ℚ} (h : IsCent q) : round2 q = q := by
  obtain ⟨z, hz⟩ := h
  subst hz
  unfold round2
  rw [ratFloor_eq_intFloor]
  have h100 : (z : ℚ) / 100 * 100 = (z : ℚ) := by ring
  rw [h100]
  have : ⌊(z : ℚ) + 1 / 2⌋ = z := by
    rw [Int.floor_eq_iff]
    constructor
    · linarith
    · linarith
  rw [this]

/-! ## Claim theorems -/

/-- C1 (counterexample): with baseSalary 1000 over a 22-work-day month
and 2 absent days, `computeSalary` reports an absence deduction of
90.91 — computed from the raw daily rate 1000/22 — while rounding the
daily rate to 45.45 before consumption, as the claim demands, would
give 90.90; so `computeSalary` does not consume 2-decimal-rounded
rates. -/
theorem C1_counterexample :
    (computeSalary samplePolicy ⟨1000, 0⟩ septTwoAbsent emptyLeaveSummary
        emptyRewardSummary 2025 9).absenceDeduction = 9091 / 100 ∧
    (computeSalarySpecRoundedRates samplePolicy ⟨1000, 0⟩ septTwoAbsent
        emptyLeaveSummary emptyRewardSummary 2025 9).absenceDeduction = 909 / 10 ∧
    computeSalary samplePolicy ⟨1000, 0⟩ septTwoAbsent emptyLeaveSummary
        emptyRewardSummary 2025 9 ≠
      computeSalarySpecRoundedRates samplePolicy ⟨1000, 0⟩ septTwoAbsent
        emptyLeaveSummary emptyRewardSummary 2025 9 := by
  refine ⟨by decide, by decide, by decide⟩

/-- C1 (amended): every derived monetary result of `computeSalary` is
rounded to 2 decimals when produced, but the `dailyRate` and
`hourlyRate` consumed by the overtime and deduction steps are the raw
unrounded quotients; the rounded rates appear only in the reported
`dailyRate`/`hourlyRate` fields.  `computeSalary` coincides with the
step-by-step spec derivation that treats the rates this way. -/
theorem C1_amended_raw_rates (pol : WorkCalendarPolicy)
    (terms : EmploymentTerms) (att : AttendanceCalculation)
    (lv : LeaveSummary) (rws : RewardSummary) (year month : ℕ) :
    computeSalary pol terms att lv rws year month
      = computeSalarySpecRawRates pol terms att lv rws year month := rfl

/-- C2: the end-to-end scenario — baseSalary 1500, a 20-work-day month
(February 2025), 18 full days, 1 morning half day, 1 absent day, no
overtime, empty leave and reward aggregates — yields
totalWorkedDays 18.5, absentDays 1, partialDays 1, dailyRate 75.00,
reported absenceDeduction 112.50, grossSalary 1500.00 and
netSalary 1387.50. -/
theorem C2_end_to_end :
    countWorkDaysInMonth samplePolicy 2025 2 = 20 ∧
    febAttendance.totalWorkedDays = 37 / 2 ∧
    febAttendance.absentDays = 1 ∧
    febAttendance.partialDays = 1 ∧
    febAttendance.overtimeHours = 0 ∧
    (computeSalary samplePolicy ⟨1500, 0⟩ febAttendance emptyLeaveSummary
        emptyRewardSummary 2025 2).dailyRate = 75 ∧
    (computeSalary samplePolicy ⟨1500, 0⟩ febAttendance emptyLeaveSummary
        emptyRewardSummary 2025 2).absenceDeduction = 225 / 2 ∧
    (computeSalary samplePolicy ⟨1500, 0⟩ febAttendance emptyLeaveSummary
        emptyRewardSummary 2025 2).grossSalary = 1500 ∧
    (computeSalary samplePolicy ⟨1500, 0⟩ febAttendance emptyLeaveSummary
        emptyRewardSummary 2025 2).netSalary = 2775 / 2 := by
  refine ⟨by decide, by decide, by decide, by decide, by decide,
    by decide, by decide, by decide, by decide⟩

/-- C3: rounding stability — baseSalary 1000 over a 22-work-day month
(September 2025) with 2 absent days gives a reported dailyRate of 45.45
and an absence deduction of 90.91 (the half-up rounding of 2 × 1000/22),
not 90.90. -/
theorem C3_rounding_stability :
    countWorkDaysInMonth samplePolicy 2025 9 = 22 ∧
    septTwoAbsent.absentDays = 2 ∧
    septTwoAbsent.partialDays = 0 ∧
    (computeSalary samplePolicy ⟨1000, 0⟩ septTwoAbsent emptyLeaveSummary
        emptyRewardSummary 2025 9).dailyRate = 909 / 20 ∧
    (computeSalary samplePolicy ⟨1000, 0⟩ septTwoAbsent emptyLeaveSummary
        emptyRewardSummary 2025 9).absenceDeduction = 9091 / 100 ∧
    (computeSalary samplePolicy ⟨1000, 0⟩ septTwoAbsent emptyLeaveSummary
        emptyRewardSummary 2025 9).absenceDeduction ≠ 909 / 10 := by
  refine ⟨by decide, by decide, by decide, by decide, by decide, by decide⟩

/-- C4: for every input, the reported `absenceDeduction` is the sum of
the full-absence deduction (absentDays × dailyRate, rounded) and the
partial-day deduction (partialDays × dailyRate × 0.5, rounded); the
unpaid-leave deduction (unpaidDays × dailyRate, rounded) is reported
separately in `unpaidLeaveDeduction`; and `totalDeductions` is exactly
the sum of the three components. -/
theorem C4_deduction_reporting (pol : WorkCalendarPolicy)
    (terms : EmploymentTerms) (att : AttendanceCalculation)
    (lv : LeaveSummary) (rws : RewardSummary) (year month : ℕ) :
    (computeSalary pol terms att lv rws year month).absenceDeduction
        = round2 (att.absentDays *
            (terms.baseSalary / (countWorkDaysInMonth pol year month : ℚ)))
          + round2 (att.partialDays *
            (terms.baseSalary / (countWorkDaysInMonth pol year month : ℚ)) * (1 / 2)) ∧
    (computeSalary pol terms att lv rws year month).unpaidLeaveDeduction
        = round2 (lv.unpaidDays *
            (terms.baseSalary / (countWorkDaysInMonth pol year month : ℚ))) ∧
    (computeSalary pol terms att lv rws year month).totalDeductions
        = round2 (att.absentDays *
            (terms.baseSalary / (countWorkDaysInMonth pol year month : ℚ)))
          + round2 (att.partialDays *
            (terms.baseSalary / (countWorkDaysInMonth pol year month : ℚ)) * (1 / 2))
          + round2 (lv.unpaidDays *
            (terms.baseSalary / (countWorkDaysInMonth pol year month : ℚ))) := by
  refine ⟨?_, rfl, ?_⟩
  · exact round2_eq_self ((round2_isCent _).add (round2_isCent _))
  · exact round2_eq_self (((round2_isCent _).add (round2_isCent _)).add (round2_isCent _))

theorem attStep_conserved_le (a : AttAcc) (d : DayAttendanceSummary) :
    conservedDays (attStep a d)
      ≤ conservedDays a + (if d.isWorkDay then 1 else 0) := by
  obtain ⟨dt, wd, st, wm, em⟩ := d
  cases wd
  · simp [attStep, conservedDays]
  · cases st <;> simp [attStep, conservedDays] <;> linarith

theorem attStep_conserved_eq (a : AttAcc) (d : DayAttendanceSummary)
    (h : d.isWorkDay = true → NonPartialStatus d.dayStatus) :
    conservedDays (attStep a d)
      = conservedDays a + (if d.isWorkDay then 1 else 0) := by
  obtain ⟨dt, wd, st, wm, em⟩ := d
  cases wd
  · simp [attStep, conservedDays]
  · rcases h rfl with h1 | h1 | h1 | h1 <;> rw [show st = _ from h1] <;>
      simp [attStep, conservedDays] <;> ring

theorem foldl_attStep_conserved_le (l : List DayAttendanceSummary) (a : AttAcc) :
    conservedDays (l.foldl attStep a)
      ≤ conservedDays a + ((l.filter (fun d => d.isWorkDay)).length : ℚ) := by
  induction l generalizing a with
  | nil => simp
  | cons d t ih =>
    have h1 := attStep_conserved_le a d
    have h2 := ih (attStep a d)
    simp only [List.foldl_cons, List.filter_cons]
    by_cases hw : d.isWorkDay
    · rw [if_pos hw] at h1
      simp only [hw, if_true, List.length_cons]
      push_cast
      linarith
    · rw [if_neg hw] at h1
      simp only [Bool.not_eq_true] at hw
      simp only [hw, Bool.false_eq_true, if_false]
      linarith

theorem foldl_attStep_conserved_eq (l : List DayAttendanceSummary) (a : AttAcc)
    (h : ∀ d ∈ l, d.isWorkDay = true → NonPartialStatus d.dayStatus) :
    conservedDays (l.foldl attStep a)
      = conservedDays a + ((l.filter (fun d => d.isWorkDay)).length : ℚ) := by
  induction l generalizing a with
  | nil => simp
  | cons d t ih =>
    have h1 := attStep_conserved_eq a d (h d (List.mem_cons_self d t))
    have h2 := ih (attStep a d) (fun x hx => h x (List.mem_cons_of_mem d hx))
    simp only [List.foldl_cons, List.filter_cons]
    by_cases hw : d.isWorkDay
    · rw [if_pos hw] at h1
      simp only [hw, if_true, List.length_cons]
      push_cast
      linarith
    · rw [if_neg hw] at h1
      simp only [Bool.not_eq_true] at hw
      simp only [hw, Bool.false_eq_true, if_false]
      linarith

/-- C5 (amended): for a list of daily summaries with at most one entry
per calendar date and at most `expectedWorkDays` work-day entries,
`calculateAttendance` satisfies
fullDays + partialDays·0.5 + absentDays ≤ expectedWorkDays; equality
holds when every work day of the month carries a day status AND no
work-day entry carries a partial status (`HALF_DAY_x` or
`LEAVE_HALF_x`) — a half-day entry consumes only 0.5 (resp. 0.75) of
the budget, so the claim's unconditional equality clause fails. -/
theorem C5_conservation_amended (pol : WorkCalendarPolicy)
    (l : List DayAttendanceSummary) (year month : ℕ)
    (_hdates : (l.map (fun d => d.date)).Nodup)
    (hcount : (l.filter (fun d => d.isWorkDay)).length
      ≤ countWorkDaysInMonth pol year month) :
    ((calculateAttendance pol l year month).fullDays
        + (calculateAttendance pol l year month).partialDays * (1 / 2)
        + (calculateAttendance pol l year month).absentDays
      ≤ ((calculateAttendance pol l year month).expectedWorkDays : ℚ)) ∧
    ((l.filter (fun d => d.isWorkDay)).length
        = countWorkDaysInMonth pol year month →
      (∀ d ∈ l, d.isWorkDay = true → NonPartialStatus d.dayStatus) →
      (calculateAttendance pol l year month).fullDays
          + (calculateAttendance pol l year month).partialDays * (1 / 2)
          + (calculateAttendance pol l year month).absentDays
        = ((calculateAttendance pol l year month).expectedWorkDays : ℚ)) := by
  have hzero : conservedDays ⟨0, 0, 0, 0, 0⟩ = 0 := by
    simp [conservedDays]
  constructor
  · have hle := foldl_attStep_conserved_le l ⟨0, 0, 0, 0, 0⟩
    rw [hzero, zero_add] at hle
    have hcast : ((l.filter (fun d => d.isWorkDay)).length : ℚ)
        ≤ ((countWorkDaysInMonth pol year month : ℕ) : ℚ) := by
      exact_mod_cast hcount
    calc (calculateAttendance pol l year month).fullDays
          + (calculateAttendance pol l year month).partialDays * (1 / 2)
          + (calculateAttendance pol l year month).absentDays
        = conservedDays (l.foldl attStep ⟨0, 0, 0, 0, 0⟩) := rfl
      _ ≤ ((l.filter (fun d => d.isWorkDay)).length : ℚ) := hle
      _ ≤ _ := hcast
  · intro hfull hstat
    have heq := foldl_attStep_conserved_eq l ⟨0, 0, 0, 0, 0⟩ hstat
    rw [hzero, zero_add, hfull] at heq
    exact heq

/-- C5 (witness for the amended theorem): a February 2025 in which all
20 work days are `FULL_DAY` reaches the conservation bound with
equality. -/
theorem C5_conservation_amended_witness :
    (calculateAttendance samplePolicy fullFebList 2025 2).fullDays
        + (calculateAttendance samplePolicy fullFebList 2025 2).partialDays * (1 / 2)
        + (calculateAttendance samplePolicy fullFebList 2025 2).absentDays
      = ((calculateAttendance samplePolicy fullFebList 2025 2).expectedWorkDays : ℚ) :=
  (C5_conservation_amended samplePolicy fullFebList 2025 2 (by decide)
    (by decide)).2 (by decide) (by decide)

/-- C5 (counterexample to the claim as stated): twenty work-day entries
with distinct dates, one of them `HALF_DAY_AM` — every work day of the
20-work-day month carries a status, yet
fullDays + partialDays·0.5 + absentDays = 19.5 ≠ 20. -/
theorem C5_counterexample :
    (halfFebList.map (fun d => d.date)).Nodup ∧
    (halfFebList.filter (fun d => d.isWorkDay)).length
      = countWorkDaysInMonth samplePolicy 2025 2 ∧
    (calculateAttendance samplePolicy halfFebList 2025 2).fullDays
        + (calculateAttendance samplePolicy halfFebList 2025 2).partialDays * (1 / 2)
        + (calculateAttendance samplePolicy halfFebList 2025 2).absentDays
      = 39 / 2 ∧
    (calculateAttendance samplePolicy halfFebList 2025 2).fullDays
        + (calculateAttendance samplePolicy halfFebList 2025 2).partialDays * (1 / 2)
        + (calculateAttendance samplePolicy halfFebList 2025 2).absentDays
      ≠ ((calculateAttendance samplePolicy halfFebList 2025 2).expectedWorkDays : ℚ) := by
  refine ⟨by decide, by decide, by decide, by decide⟩

/-- C6: whenever an existing request of the same employee with status
EN_ATTENTE (pending) or VALIDE (approved) overlaps the requested date
range, `createLeaveRequest` — given a request that passes the earlier
shape validations — returns the conflict error and leaves the state
unchanged (no record persisted). -/
theorem C6_overlap_rejected (pol : WorkCalendarPolicy) (db : DB)
    (p : LeaveReqParams)
    (hhalf : p.isHalfDay = true → p.startDate = p.endDate ∧ p.halfDaySession ≠ none)
    (horder : p.startDate ≤ p.endDate)
    (hdur : (0 : ℚ) < (if p.isHalfDay then 1 / 2
      else (countWorkDaysBetween pol p.startDate p.endDate : ℚ)))
    (hov : ∃ l ∈ db.demandeConge, l.userId = p.userId ∧
      (l.status = .EN_ATTENTE ∨ l.status = .VALIDE) ∧
      l.dateDebut ≤ p.endDate ∧ p.startDate ≤ l.dateFin) :
    createLeaveRequest pol db p = (.err .overlappingRequest, db) := by
  obtain ⟨l0, hl0, hcond⟩ := hov
  have hfind : (db.demandeConge.find? (fun l =>
      decide (l.userId = p.userId ∧
        (l.status = .EN_ATTENTE ∨ l.status = .VALIDE) ∧
        l.dateDebut ≤ p.endDate ∧ p.startDate ≤ l.dateFin))).isSome := by
    rw [List.find?_isSome]
    exact ⟨l0, hl0, by simpa using hcond⟩
  obtain ⟨lf, hlf⟩ := Option.isSome_iff_exists.mp hfind
  have h1 : ¬(p.isHalfDay ∧ p.startDate ≠ p.endDate) := by
    rintro ⟨ha, hb⟩
    exact hb (hhalf ha).1
  have h2 : ¬(p.isHalfDay ∧ p.halfDaySession = none) := by
    rintro ⟨ha, hb⟩
    exact (hhalf ha).2 hb
  have h3 : ¬(p.endDate < p.startDate) := not_lt.mpr horder
  have h4 : ¬((if p.isHalfDay then (1 : ℚ) / 2
      else (countWorkDaysBetween pol p.startDate p.endDate : ℚ)) ≤ 0) :=
    not_le.mpr hdur
  simp only [createLeaveRequest]
  rw [if_neg h1, if_neg h2, if_neg h3, if_neg h4, hlf]

/-- C6 (witness): requesting 2025-09-05 through 2025-09-09 while an
approved leave exists on 2025-09-08 is rejected with the conflict
error. -/
theorem C6_overlap_rejected_witness :
    createLeaveRequest samplePolicy overlapDB overlapReq
      = (.err .overlappingRequest, overlapDB) :=
  C6_overlap_rejected samplePolicy overlapDB overlapReq (by decide)
    (by decide) (by decide) (by decide)

theorem foldl_paid_sum (pol : WorkCalendarPolicy) (l : List LeaveRow) (init : ℚ) :
    l.foldl (fun s x => if x.type = .PAID then s + effectiveDuration pol x else s) init
      = init + ((l.filter (fun x => decide (x.type = LeaveType.PAID))).map
          (effectiveDuration pol)).sum := by
  induction l generalizing init with
  | nil => simp
  | cons x t ih =>
    simp only [List.foldl_cons, List.filter_cons]
    by_cases hx : x.type = LeaveType.PAID
    · rw [if_pos hx, ih]
      simp only [hx, decide_True, if_true, List.map_cons, List.sum_cons]
      ring
    · rw [if_neg hx, ih]
      simp [hx]

theorem filter_status_paid (db : DB) (userId year : ℕ) (st : LeaveStatus) :
    (db.demandeConge.filter (fun l =>
        decide (l.userId = userId ∧ l.status = st ∧
          civilToDay year 1 1 ≤ l.dateDebut ∧
          l.dateDebut ≤ civilToDay year 12 31))).filter
      (fun x => decide (x.type = LeaveType.PAID))
    = db.demandeConge.filter (fun l =>
        decide (l.userId = userId ∧ l.status = st ∧
          civilToDay year 1 1 ≤ l.dateDebut ∧ l.dateDebut ≤ civilToDay year 12 31 ∧
          l.type = .PAID)) := by
  rw [List.filter_filter]
  apply List.filter_congr
  intro x _
  simp only [← Bool.decide_and, decide_eq_decide]
  tauto

theorem getLeaveBalance_used (pol : WorkCalendarPolicy) (db : DB) (u y : ℕ) :
    (getLeaveBalance pol db u y).used = usedPaidSum pol db u y := by
  simp only [getLeaveBalance, usedPaidSum]
  rw [foldl_paid_sum, zero_add, filter_status_paid]

theorem getLeaveBalance_pending (pol : WorkCalendarPolicy) (db : DB) (u y : ℕ) :
    (getLeaveBalance pol db u y).pending = pendingPaidSum pol db u y := by
  simp only [getLeaveBalance, pendingPaidSum]
  rw [foldl_paid_sum, zero_add, filter_status_paid]

theorem getLeaveBalance_remaining (pol : WorkCalendarPolicy) (db : DB) (u y : ℕ) :
    (getLeaveBalance pol db u y).remaining
      = (getLeaveBalance pol db u y).annualAllowance
        - usedPaidSum pol db u y - pendingPaidSum pol db u y := by
  have hu := getLeaveBalance_used pol db u y
  have hp := getLeaveBalance_pending pol db u y
  revert hu hp
  simp only [getLeaveBalance, usedPaidSum, pendingPaidSum]
  intro hu hp
  rw [← hu, ← hp]

/-- C7: the leave balance satisfies remaining = annualAllowance − used
− pending with `used` the sum of APPROVED PAID durations of the year
and `pending` the sum of PENDING PAID durations; and, for an
annual-leave-counted request that passes the earlier validations,
`createLeaveRequest` fails with the insufficient-balance error carrying
the remaining and requested figures exactly when remaining < requested
duration. -/
theorem C7_balance_arithmetic (pol : WorkCalendarPolicy) (db : DB)
    (p : LeaveReqParams)
    (hhalf : p.isHalfDay = true → p.startDate = p.endDate ∧ p.halfDaySession ≠ none)
    (horder : p.startDate ≤ p.endDate)
    (hdur : (0 : ℚ) < (if p.isHalfDay then 1 / 2
      else (countWorkDaysBetween pol p.startDate p.endDate : ℚ)))
    (hnoov : ∀ l ∈ db.demandeConge, ¬(l.userId = p.userId ∧
      (l.status = .EN_ATTENTE ∨ l.status = .VALIDE) ∧
      l.dateDebut ≤ p.endDate ∧ p.startDate ≤ l.dateFin))
    (htype : p.type ∈ ANNUAL_LEAVE_TYPES) :
    (∀ u y : ℕ,
      (getLeaveBalance pol db u y).used = usedPaidSum pol db u y ∧
      (getLeaveBalance pol db u y).pending = pendingPaidSum pol db u y ∧
      (getLeaveBalance pol db u y).remaining
        = (getLeaveBalance pol db u y).annualAllowance
          - usedPaidSum pol db u y - pendingPaidSum pol db u y) ∧
    ((createLeaveRequest pol db p).1
        = .err (.insufficientBalance
            (getLeaveBalance pol db p.userId (dayToYear p.startDate)).remaining
            (if p.isHalfDay then 1 / 2
              else (countWorkDaysBetween pol p.startDate p.endDate : ℚ)))
      ↔ (getLeaveBalance pol db p.userId (dayToYear p.startDate)).remaining
          < (if p.isHalfDay then 1 / 2
              else (countWorkDaysBetween pol p.startDate p.endDate : ℚ))) := by
  constructor
  · intro u y
    exact ⟨getLeaveBalance_used pol db u y, getLeaveBalance_pending pol db u y,
      getLeaveBalance_remaining pol db u y⟩
  · have h1 : ¬(p.isHalfDay ∧ p.startDate ≠ p.endDate) := by
      rintro ⟨ha, hb⟩
      exact hb (hhalf ha).1
    have h2 : ¬(p.isHalfDay ∧ p.halfDaySession = none) := by
      rintro ⟨ha, hb⟩
      exact (hhalf ha).2 hb
    have h3 : ¬(p.endDate < p.startDate) := not_lt.mpr horder
    have h4 : ¬((if p.isHalfDay then (1 : ℚ) / 2
        else (countWorkDaysBetween pol p.startDate p.endDate : ℚ)) ≤ 0) :=
      not_le.mpr hdur
    have hfindnone : db.demandeConge.find? (fun l =>
        decide (l.userId = p.userId ∧
          (l.status = .EN_ATTENTE ∨ l.status = .VALIDE) ∧
          l.dateDebut ≤ p.endDate ∧ p.startDate ≤ l.dateFin)) = none := by
      rw [List.find?_eq_none]
      intro l hl
      simpa using hnoov l hl
    simp only [createLeaveRequest]
    rw [if_neg h1, if_neg h2, if_neg h3, if_neg h4, hfindnone, if_pos htype]
    by_cases hrem : (getLeaveBalance pol db p.userId (dayToYear p.startDate)).remaining
        < (if p.isHalfDay then (1 : ℚ) / 2
            else (countWorkDaysBetween pol p.startDate p.endDate : ℚ))
    · rw [if_pos hrem]
      simpa using hrem
    · rw [if_neg hrem]
      simpa using not_lt.mp hrem

/-- C7 (witness): allowance 26, 10 approved and 3 pending PAID days
give remaining 13; the 14-work-day paid request fails with the
insufficient-balance error carrying 13 and 14. -/
theorem C7_balance_arithmetic_witness :
    (getLeaveBalance samplePolicy balanceDB 1 2025).remaining = 26 - 10 - 3 ∧
    (createLeaveRequest samplePolicy balanceDB balanceReq).1
      = .err (.insufficientBalance 13 14) := by
  have h := C7_balance_arithmetic samplePolicy balanceDB balanceReq
    (by decide) (by decide) (by decide) (by decide) (by decide)
  refine ⟨?_, ?_⟩
  · rw [(h.1 1 2025).2.2]
    decide
  · have h2 := h.2.mpr (by decide)
    rw [show (getLeaveBalance samplePolicy balanceDB balanceReq.userId
        (dayToYear balanceReq.startDate)).remaining = 13 from by decide] at h2
    rw [show (if balanceReq.isHalfDay then (1 : ℚ) / 2
        else (countWorkDaysBetween samplePolicy balanceReq.startDate
          balanceReq.endDate : ℚ)) = 14 from by decide] at h2
    exact h2

theorem find?_append_singleton_false {α : Type} (p : α → Bool) (l : List α)
    (x : α) (hx : p x = false) : (l ++ [x]).find? p = l.find? p := by
  induction l with
  | nil =>
    rw [List.nil_append, List.find?_cons_of_neg _ (by simp [hx])]
  | cons y t ih =>
    cases hy : p y
    · rw [List.cons_append, List.find?_cons_of_neg _ (by simp [hy]),
        List.find?_cons_of_neg _ (by simp [hy]), ih]
    · rw [List.cons_append, List.find?_cons_of_pos _ hy,
        List.find?_cons_of_pos _ hy]

theorem find?_append_left_none {α : Type} (p : α → Bool) (l1 l2 : List α)
    (h : l1.find? p = none) : (l1 ++ l2).find? p = l2.find? p := by
  induction l1 with
  | nil => rfl
  | cons y t ih =>
    cases hy : p y
    · rw [List.find?_cons_of_neg _ (by simp [hy])] at h
      rw [List.cons_append, List.find?_cons_of_neg _ (by simp [hy]), ih h]
    · rw [List.find?_cons_of_pos _ hy] at h
      exact absurd h (by simp)

theorem find?_map_upd_self (l : List SessionRow) (u d : ℕ) (st : SessionType)
    (status : AttendanceStatus) (m : ℚ)
    (hany : l.any (fun s =>
      decide (s.userId = u ∧ s.date = d ∧ s.sessionType = st)) = true) :
    ∃ s, (l.map (fun x =>
        if x.userId = u ∧ x.date = d ∧ x.sessionType = st then
          { x with status := status, durationMinutes := m }
        else x)).find? (fun x =>
          decide (x.userId = u ∧ x.date = d ∧ x.sessionType = st))
      = some s ∧ s.status = status ∧ s.durationMinutes = m := by
  induction l with
  | nil => simp at hany
  | cons x t ih =>
    by_cases hx : x.userId = u ∧ x.date = d ∧ x.sessionType = st
    · refine ⟨{ x with status := status, durationMinutes := m }, ?_, rfl, rfl⟩
      rw [List.map_cons, if_pos hx]
      exact List.find?_cons_of_pos _ (by simpa using hx)
    · have hany2 : t.any (fun s =>
          decide (s.userId = u ∧ s.date = d ∧ s.sessionType = st)) = true := by
        simp only [List.any_cons, Bool.or_eq_true] at hany
        rcases hany with h | h
        · exact absurd (by simpa using h) hx
        · exact h
      obtain ⟨s, hfind, hst, hm⟩ := ih hany2
      refine ⟨s, ?_, hst, hm⟩
      rw [List.map_cons, if_neg hx,
        List.find?_cons_of_neg _ (by simpa using hx)]
      exact hfind

theorem upsertSession_find_self (l : List SessionRow) (u d : ℕ)
    (st : SessionType) (status : AttendanceStatus) (m : ℚ) :
    ∃ s, (upsertSession l u d st status m).find? (fun x =>
        decide (x.userId = u ∧ x.date = d ∧ x.sessionType = st)) = some s ∧
      s.status = status ∧ s.durationMinutes = m := by
  unfold upsertSession
  by_cases hany : l.any (fun s =>
      decide (s.userId = u ∧ s.date = d ∧ s.sessionType = st)) = true
  · rw [if_pos hany]
    exact find?_map_upd_self l u d st status m hany
  · rw [if_neg hany]
    have hnone : l.find? (fun x =>
        decide (x.userId = u ∧ x.date = d ∧ x.sessionType = st)) = none := by
      rw [List.find?_eq_none]
      intro x hx hpx
      exact hany (List.any_eq_true.mpr ⟨x, hx, hpx⟩)
    refine ⟨⟨u, d, st, status, m⟩, ?_, rfl, rfl⟩
    rw [find?_append_left_none _ _ _ hnone]
    exact List.find?_cons_of_pos _ (by simp)

theorem upsertSession_find_other (l : List SessionRow) (u d : ℕ)
    (st st2 : SessionType) (status : AttendanceStatus) (m : ℚ)
    (hne : st ≠ st2) :
    (upsertSession l u d st2 status m).find? (fun x =>
        decide (x.userId = u ∧ x.date = d ∧ x.sessionType = st))
      = l.find? (fun x =>
        decide (x.userId = u ∧ x.date = d ∧ x.sessionType = st)) := by
  unfold upsertSession
  by_cases hany : l.any (fun s =>
      decide (s.userId = u ∧ s.date = d ∧ s.sessionType = st2)) = true
  · rw [if_pos hany]
    clear hany
    induction l with
    | nil => rfl
    | cons x t ih =>
      rw [List.map_cons]
      by_cases hx2 : x.userId = u ∧ x.date = d ∧ x.sessionType = st2
      · rw [if_pos hx2]
        have hxf : ¬(x.userId = u ∧ x.date = d ∧ x.sessionType = st) := by
          rintro ⟨-, -, hst⟩
          exact hne (hst ▸ hx2.2.2)
        rw [List.find?_cons_of_neg _ (by simpa using hxf),
          List.find?_cons_of_neg _ (by simpa using hxf), ih]
      · rw [if_neg hx2]
        by_cases hx : x.userId = u ∧ x.date = d ∧ x.sessionType = st
        · rw [List.find?_cons_of_pos _ (by simpa using hx),
            List.find?_cons_of_pos _ (by simpa using hx)]
        · rw [List.find?_cons_of_neg _ (by simpa using hx),
            List.find?_cons_of_neg _ (by simpa using hx), ih]
  · rw [if_neg hany]
    apply find?_append_singleton_false
    simp only [decide_eq_false_iff_not]
    rintro ⟨-, -, hst⟩
    exact hne hst.symm

/-- C8: `grantReward` fails, creating nothing, when a reward already
exists for the exact (employee, date) pair; on success it appends the
reward with status APPROVED and, exactly when the date is a work day,
upserts a REWARD-status 240-minute attendance session for each of the
MORNING and AFTERNOON slots, writing no session otherwise. -/
theorem C8_grant_reward (pol : WorkCalendarPolicy) (db : DB)
    (p : GrantRewardParams) :
    ((∃ r ∈ db.rewardDay, r.userId = p.userId ∧ r.date = p.date) →
      grantReward pol db p = (.duplicate, db)) ∧
    ((∀ r ∈ db.rewardDay, ¬(r.userId = p.userId ∧ r.date = p.date)) →
      ∃ reward,
        (grantReward pol db p).1 = .ok reward ∧
        reward.status = .APPROVED ∧
        (grantReward pol db p).2.rewardDay = db.rewardDay ++ [reward] ∧
        (isWorkDay pol p.date = true →
          ∀ st : SessionType, ∃ s : SessionRow,
            (grantReward pol db p).2.attendanceSession.find? (fun x =>
              decide (x.userId = p.userId ∧ x.date = p.date ∧
                x.sessionType = st)) = some s ∧
            s.status = .REWARD ∧ s.durationMinutes = 240) ∧
        (isWorkDay pol p.date = false →
          (grantReward pol db p).2.attendanceSession = db.attendanceSession)) := by
  constructor
  · rintro ⟨r0, hr0, hcond⟩
    have hfind : (db.rewardDay.find? (fun r =>
        decide (r.userId = p.userId ∧ r.date = p.date))).isSome := by
      rw [List.find?_isSome]
      exact ⟨r0, hr0, by simpa using hcond⟩
    obtain ⟨rf, hrf⟩ := Option.isSome_iff_exists.mp hfind
    simp only [grantReward]
    rw [hrf]
  · intro hnone
    have hfindnone : db.rewardDay.find? (fun r =>
        decide (r.userId = p.userId ∧ r.date = p.date)) = none := by
      rw [List.find?_eq_none]
      intro r hr
      simpa using hnone r hr
    have hred : grantReward pol db p
        = (.ok ⟨db.nextId, p.userId, p.date, p.reason, p.grantedById,
            p.salaryImpact, .APPROVED⟩,
          { db with
            rewardDay := db.rewardDay ++
              [⟨db.nextId, p.userId, p.date, p.reason, p.grantedById,
                p.salaryImpact, .APPROVED⟩]
            attendanceSession :=
              if isWorkDay pol p.date then
                upsertSession
                  (upsertSession db.attendanceSession p.userId p.date
                    .MORNING .REWARD 240)
                  p.userId p.date .AFTERNOON .REWARD 240
              else db.attendanceSession
            nextId := db.nextId + 1 }) := by
      simp only [grantReward]
      rw [hfindnone]
    refine ⟨⟨db.nextId, p.userId, p.date, p.reason, p.grantedById,
      p.salaryImpact, .APPROVED⟩, ?_, rfl, ?_, ?_, ?_⟩
    · rw [hred]
    · rw [hred]
    · intro hwd st
      rw [hred]
      simp only [hwd, if_true]
      cases st
      · rw [upsertSession_find_other _ _ _ _ _ _ _ (by decide)]
        exact upsertSession_find_self _ _ _ _ _ _
      · exact upsertSession_find_self _ _ _ _ _ _
    · intro hwd
      rw [hred]
      simp [hwd]

/-- C8 (witness): granting on an already rewarded date fails and
changes nothing; granting on a fresh work day (Monday 2025-09-08)
appends the APPROVED reward and writes the two REWARD sessions. -/
theorem C8_grant_reward_witness :
    grantReward samplePolicy dupRewardDB sampleGrant
      = (.duplicate, dupRewardDB) ∧
    (∃ reward,
      (grantReward samplePolicy emptyDB sampleGrant).1 = .ok reward ∧
      reward.status = .APPROVED ∧
      (grantReward samplePolicy emptyDB sampleGrant).2.rewardDay
        = emptyDB.rewardDay ++ [reward] ∧
      (isWorkDay samplePolicy sampleGrant.date = true →
        ∀ st : SessionType, ∃ s : SessionRow,
          (grantReward samplePolicy emptyDB sampleGrant).2.attendanceSession.find?
            (fun x => decide (x.userId = sampleGrant.userId ∧
              x.date = sampleGrant.date ∧ x.sessionType = st)) = some s ∧
          s.status = .REWARD ∧ s.durationMinutes = 240) ∧
      (isWorkDay samplePolicy sampleGrant.date = false →
        (grantReward samplePolicy emptyDB sampleGrant).2.attendanceSession
          = emptyDB.attendanceSession)) :=
  ⟨(C8_grant_reward samplePolicy dupRewardDB sampleGrant).1 (by decide),
   (C8_grant_reward samplePolicy emptyDB sampleGrant).2 (by decide)⟩

/-- C9: `revokeReward` keeps the reward row, with status REVOKED, and
because `grantReward`'s duplicate check matches any row for that
(employee, date) regardless of status, every subsequent grant for the
same employee and date fails — a revoked reward day can never be
re-granted. -/
theorem C9_revoked_blocks_regrant (pol : WorkCalendarPolicy) (db : DB)
    (r : RewardRow) (i : ℕ)
    (hfind : db.rewardDay.find? (fun x => decide (x.id = i)) = some r) :
    ∃ r2 db2, revokeReward db i = some (r2, db2) ∧
      r2.userId = r.userId ∧ r2.date = r.date ∧ r2.status = .REVOKED ∧
      (∃ x ∈ db2.rewardDay, x.userId = r.userId ∧ x.date = r.date ∧
        x.status = .REVOKED) ∧
      (∀ p : GrantRewardParams, p.userId = r.userId → p.date = r.date →
        grantReward pol db2 p = (.duplicate, db2)) := by
  have hmem : r ∈ db.rewardDay := List.mem_of_find?_eq_some hfind
  have hid : r.id = i := by simpa using List.find?_some hfind
  have hmemupd : { r with status := RewardStatus.REVOKED } ∈
      db.rewardDay.map (fun x =>
        if x.id = i then { x with status := RewardStatus.REVOKED } else x) := by
    have himg : (fun x => if x.id = i then
        { x with status := RewardStatus.REVOKED } else x) r
        = { r with status := RewardStatus.REVOKED } := if_pos hid
    exact himg ▸ List.mem_map_of_mem _ hmem
  refine ⟨{ r with status := .REVOKED },
    { db with
      rewardDay := db.rewardDay.map (fun x =>
        if x.id = i then { x with status := .REVOKED } else x)
      attendanceSession := db.attendanceSession.filter (fun s =>
        !decide (s.userId = r.userId ∧ s.date = r.date ∧
          s.status = .REWARD)) },
    ?_, rfl, rfl, rfl, ?_, ?_⟩
  · simp only [revokeReward]
    rw [hfind]
  · exact ⟨{ r with status := RewardStatus.REVOKED }, hmemupd, rfl, rfl, rfl⟩
  · intro p hpu hpd
    have hfind2 : ((db.rewardDay.map (fun x =>
        if x.id = i then { x with status := RewardStatus.REVOKED } else x)).find?
        (fun x => decide (x.userId = p.userId ∧ x.date = p.date))).isSome := by
      rw [List.find?_isSome]
      exact ⟨{ r with status := RewardStatus.REVOKED }, hmemupd,
        by simp [hpu, hpd]⟩
    obtain ⟨rf, hrf⟩ := Option.isSome_iff_exists.mp hfind2
    simp only [grantReward]
    rw [hrf]

/-- C10: the duration of a half-day leave is the constant 0.5 and is
never checked against the work calendar — `createLeaveRequest` accepts
a half-day request whose single date is a non-work day (0.5 > 0 passes
the no-working-day validation), and `getMonthlySummary` adds 0.5 to the
matching bucket, including `salaryDeductionDays` for UNPAID, for an
approved half-day leave in the month even when its date is a non-work
day. -/
theorem C10_halfday_ignores_calendar (pol : WorkCalendarPolicy)
    (dbA : DB) (pA : LeaveReqParams) (dbB : DB) (lB : LeaveRow)
    (u year month : ℕ) :
    ((pA.isHalfDay = true) → (pA.startDate = pA.endDate) →
      (pA.halfDaySession ≠ none) →
      isWorkDay pol pA.startDate = false →
      (∀ l ∈ dbA.demandeConge, ¬(l.userId = pA.userId ∧
        (l.status = .EN_ATTENTE ∨ l.status = .VALIDE) ∧
        l.dateDebut ≤ pA.endDate ∧ pA.startDate ≤ l.dateFin)) →
      pA.type = .UNPAID →
      ∃ leaf, (createLeaveRequest pol dbA pA).1 = .ok leaf ∧
        leaf.durationDays = some (1 / 2) ∧ leaf.status = .EN_ATTENTE ∧
        (createLeaveRequest pol dbA pA).2.demandeConge
          = dbA.demandeConge ++ [leaf]) ∧
    (dbB.demandeConge = [lB] → lB.userId = u → lB.status = .VALIDE →
      lB.isHalfDay = true → lB.type = .UNPAID →
      lB.dateDebut ≤ civilToDay year month (daysInMonth year month) →
      civilToDay year month 1 ≤ lB.dateFin →
      isWorkDay pol lB.dateDebut = false →
      (getMonthlySummary pol dbB u year month).unpaidDays = 1 / 2 ∧
      (getMonthlySummary pol dbB u year month).salaryDeductionDays = 1 / 2 ∧
      (getMonthlySummary pol dbB u year month).totalDays = 1 / 2) := by
  constructor
  · intro hA1 hA2 hA3 _hAnw hAov hAtype
    have h1 : ¬(pA.isHalfDay ∧ pA.startDate ≠ pA.endDate) := by
      rintro ⟨-, hb⟩
      exact hb hA2
    have h2 : ¬(pA.isHalfDay ∧ pA.halfDaySession = none) := by
      rintro ⟨-, hb⟩
      exact hA3 hb
    have h3 : ¬(pA.endDate < pA.startDate) := by
      rw [← hA2]
      exact lt_irrefl _
    have h4 : ¬((if pA.isHalfDay then (1 : ℚ) / 2
        else (countWorkDaysBetween pol pA.startDate pA.endDate : ℚ)) ≤ 0) := by
      rw [if_pos hA1]
      norm_num
    have hfindnone : dbA.demandeConge.find? (fun l =>
        decide (l.userId = pA.userId ∧
          (l.status = .EN_ATTENTE ∨ l.status = .VALIDE) ∧
          l.dateDebut ≤ pA.endDate ∧ pA.startDate ≤ l.dateFin)) = none := by
      rw [List.find?_eq_none]
      intro l hl
      simpa using hAov l hl
    have hbal : ¬(pA.type ∈ ANNUAL_LEAVE_TYPES) := by
      rw [hAtype]
      decide
    refine ⟨⟨dbA.nextId, pA.userId, pA.type, pA.startDate, pA.endDate,
      pA.isHalfDay, pA.halfDaySession, .EN_ATTENTE, pA.reason,
      !(PAID_LEAVE_TYPES.contains pA.type),
      some (if pA.isHalfDay then (1 : ℚ) / 2
        else (countWorkDaysBetween pol pA.startDate pA.endDate : ℚ))⟩,
      ?_, ?_, rfl, ?_⟩
    · simp only [createLeaveRequest]
      rw [if_neg h1, if_neg h2, if_neg h3, if_neg h4, hfindnone, if_neg hbal]
    · simp only [Option.some.injEq]
      rw [if_pos hA1]
    · simp only [createLeaveRequest]
      rw [if_neg h1, if_neg h2, if_neg h3, if_neg h4, hfindnone, if_neg hbal]
  · intro hdb hBu hBst hBhalf hBtype hBle1 hBle2 _hBnw
    have hfilter : dbB.demandeConge.filter (fun l =>
        decide (l.userId = u ∧ l.status = .VALIDE ∧
          l.dateDebut ≤ civilToDay year month (daysInMonth year month) ∧
          civilToDay year month 1 ≤ l.dateFin)) = [lB] := by
      rw [hdb, List.filter_cons]
      simp [hBu, hBst, hBle1, hBle2]
    simp only [getMonthlySummary]
    rw [hfilter]
    simp only [List.foldl_cons, List.foldl_nil]
    rw [if_pos hBhalf, hBtype]
    norm_num

/-- C9 (witness): revoking the reward of `dupRewardDB` keeps a REVOKED
row for employee 1 on 2025-09-08, and a fresh grant for the same
employee and date then fails. -/
theorem C9_revoked_blocks_regrant_witness :
    ∃ r2 db2, revokeReward dupRewardDB 1 = some (r2, db2) ∧
      r2.userId = priorReward.userId ∧ r2.date = priorReward.date ∧
      r2.status = .REVOKED ∧
      (∃ x ∈ db2.rewardDay, x.userId = priorReward.userId ∧
        x.date = priorReward.date ∧ x.status = .REVOKED) ∧
      (∀ p : GrantRewardParams, p.userId = priorReward.userId →
        p.date = priorReward.date →
        grantReward samplePolicy db2 p = (.duplicate, db2)) :=
  C9_revoked_blocks_regrant samplePolicy dupRewardDB priorReward 1 (by decide)

/-- C10 (witness): a half-day UNPAID request on Saturday 2025-09-06 is
accepted with duration 0.5, and the approved half-day UNPAID leave on
that Saturday contributes 0.5 to `unpaidDays`, `salaryDeductionDays`
and `totalDays` of September 2025. -/
theorem C10_halfday_ignores_calendar_witness :
    (∃ leaf, (createLeaveRequest samplePolicy emptyDB weekendHalfReq).1
        = .ok leaf ∧
      leaf.durationDays = some (1 / 2) ∧ leaf.status = .EN_ATTENTE ∧
      (createLeaveRequest samplePolicy emptyDB weekendHalfReq).2.demandeConge
        = emptyDB.demandeConge ++ [leaf]) ∧
    ((getMonthlySummary samplePolicy weekendHalfDB 1 2025 9).unpaidDays = 1 / 2 ∧
     (getMonthlySummary samplePolicy weekendHalfDB 1 2025 9).salaryDeductionDays = 1 / 2 ∧
     (getMonthlySummary samplePolicy weekendHalfDB 1 2025 9).totalDays = 1 / 2) :=
  ⟨(C10_halfday_ignores_calendar samplePolicy emptyDB weekendHalfReq
      weekendHalfDB weekendHalfRow 1 2025 9).1 (by decide) (by decide)
      (by decide) (by decide) (by decide) (by decide),
   (C10_halfday_ignores_calendar samplePolicy emptyDB weekendHalfReq
      weekendHalfDB weekendHalfRow 1 2025 9).2 rfl (by decide) (by decide)
      (by decide) (by decide) (by decide) (by decide) (by decide)⟩
